import Mathlib

/-!
Verification of `hmalib/lambdas/actions/action_performer.py` from the
Facebook-ThreatExchange repository (hasher-matcher-actioner).

The file under `src/` contains `lambda_init_once`, `perform_label_action`
and `lambda_handler`.  The message model (`BankedSignal`, `MatchMessage`,
`ActionMessage` with its AWS-JSON serialization), the `ActionPerformer`
registry, the `ActionEvent` audit record and `HMAConfig` live in
`hmalib.common.*` modules that are not part of the provided sources; those
are modelled from the specification and marked as such in their doc
comments.
-/

/-- One piece of evidence (`BankedSignal`) that content matched a known
reference signal.  Modelled from the spec: `hmalib.common.message_models`
is not among the sources; the spec gives the fields
(signal_id, bank_id, bank_name). -/
structure BankedSignal where
  signal_id : String
  bank_id : String
  bank_name : String
deriving DecidableEq, Repr

/-- The match evidence (`MatchMessage`) without any decision attached.
Modelled from the spec: fields (content_key, matched_hash,
matching_banked_signals). -/
structure MatchMessage where
  content_key : String
  matched_hash : String
  matching_banked_signals : List BankedSignal
deriving DecidableEq, Repr

/-- An opaque string (`ActionLabel`) identifier naming a class of response;
equality is by value.  Modelled from the spec:
`hmalib.common.evaluator_models` is not among the sources. -/
structure ActionLabel where
  value : String
deriving DecidableEq, Repr

/-- The policy rule (`ActionRule`) that decided a label should fire.
Modelled from the spec: the rule model is explicitly left opaque
("implement rules as opaque, independently serializable tokens"). -/
structure ActionRule where
  value : String
deriving DecidableEq, Repr

/-- An `ActionMessage` is a `MatchMessage` plus the resolved action label and
triggering rules; the unit placed on the transport.  Modelled from the
spec: it is "a superset of MatchMessage plus the decision (label) and
provenance (rules)". -/
structure ActionMessage where
  content_key : String
  matched_hash : String
  matching_banked_signals : List BankedSignal
  action_label : ActionLabel
  action_rules : List ActionRule
deriving DecidableEq, Repr

/-- The `MatchMessage` view of an `ActionMessage`: the label and rules are
dropped.  In the Python source an `ActionMessage` is passed where a
`MatchMessage` is expected (it subclasses `MatchMessage` per the spec);
this function is that typed boundary. -/
def ActionMessage.toMatchMessage (m : ActionMessage) : MatchMessage :=
  ⟨m.content_key, m.matched_hash, m.matching_banked_signals⟩

/-- Outcome of invoking a handler's `perform_action`: it either returns
normally or raises.  The spec: "The handler invocation itself may
raise/fail; that failure is NOT caught inside dispatch". -/
inductive HandlerOutcome where
  | ok : HandlerOutcome
  | raises : String → HandlerOutcome
deriving DecidableEq, Repr

/-- An action handler (`ActionPerformer` subclass instance).  Modelled from
the spec: polymorphic over the capability `perform_action(match_message)`.
`outcome` gives, for each argument, whether the invocation returns or
raises. -/
structure Handler where
  outcome : MatchMessage → HandlerOutcome

/-- The `ActionPerformer` registry state: a mapping from label strings to
handlers.  Modelled from the spec: `ActionPerformer.get(label) -> handler
or absent` is a pure lookup over a process-wide mapping. -/
def Registry : Type := List (String × Handler)

/-- Resolution (`ActionPerformer.get`): resolve a label string to a handler, absent when
none is registered. -/
def Registry.get (reg : Registry) (label : String) : Option Handler :=
  List.lookup label reg

/-- The durable audit record (`ActionEvent`).  Modelled from the spec:
`hmalib.common.content_models` is not among the sources; the spec gives the
columns {content_id, performed_at, action_label, action_rules (serialized
array)}.  Time is a `Nat` tick; rule blobs are the strings produced by
`ActionRule.to_aws_json`. -/
structure ActionEvent where
  content_id : String
  performed_at : Nat
  action_label : String
  action_rules : List String
deriving DecidableEq, Repr

/-- Observable side effects of processing, shared between dispatch and the
intake loop so that "dispatch writes no audit record" is a statement, not a
typing accident. -/
inductive Event where
  | handlerInvoked : String → MatchMessage → Event
  | auditWritten : ActionEvent → Event
deriving DecidableEq, Repr

/-- Result of `perform_label_action`: the handler invocations it performed
(as events) and either the returned `Bool` or the raised error. -/
structure DispatchResult where
  events : List Event
  result : Except String Bool
deriving Repr

/-- Embedding of `perform_label_action` (action_performer.py lines 46-52):

    if action_performer := ActionPerformer.get(action_label.value):
        action_performer.perform_action(match_message)
        return True
    return False

A resolved handler is invoked once on `match_message`; a raise propagates
(`Except.error`); an unresolved label returns `False` with no effect. -/
def perform_label_action (reg : Registry) (match_message : MatchMessage)
    (action_label : ActionLabel) : DispatchResult :=
  match reg.get action_label.value with
  | some action_performer =>
      match action_performer.outcome match_message with
      | .ok => ⟨[.handlerInvoked action_label.value match_message], .ok true⟩
      | .raises e => ⟨[.handlerInvoked action_label.value match_message], .error e⟩
  | none => ⟨[], .ok false⟩

/-- AWS-JSON values, the transport-safe wire format.  Modelled from the
spec: the body is "UTF-8 text encoding a serialized ActionMessage"; the
text layer is abstracted to a JSON syntax tree. -/
inductive AwsJson where
  | str : String → AwsJson
  | arr : List AwsJson → AwsJson
  | obj : List (String × AwsJson) → AwsJson

/-- Serialization (`ActionRule.to_aws_json`): serialize one rule independently to a blob.
Modelled from the spec: rules are "opaque, independently serializable
tokens". -/
def ActionRule.to_aws_json (r : ActionRule) : String := r.value

/-- The inverse of `ActionRule.to_aws_json`.  Modelled from the spec. -/
def ActionRule.from_aws_json (s : String) : ActionRule := ⟨s⟩

/-- Serialization of a `BankedSignal` to wire form.  Modelled from the spec: an object
{signal_id, bank_id, bank_name}. -/
def BankedSignal.to_aws_json (b : BankedSignal) : AwsJson :=
  .obj [("signal_id", .str b.signal_id), ("bank_id", .str b.bank_id),
        ("bank_name", .str b.bank_name)]

/-- Decode a string field of a JSON object; any other shape is malformed. -/
def AwsJson.getStr (fields : List (String × AwsJson)) (key : String) :
    Except String String :=
  match List.lookup key fields with
  | some (.str s) => .ok s
  | _ => .error ("missing or non-string field " ++ key)

/-- Deserialization of a `BankedSignal` from wire form.  Modelled from the spec. -/
def BankedSignal.from_aws_json : AwsJson → Except String BankedSignal
  | .obj fields => do
      let sid ← AwsJson.getStr fields "signal_id"
      let bid ← AwsJson.getStr fields "bank_id"
      let bname ← AwsJson.getStr fields "bank_name"
      .ok ⟨sid, bid, bname⟩
  | _ => .error "banked signal is not an object"

/-- Decode a list of banked signals elementwise. -/
def decodeSignals : List AwsJson → Except String (List BankedSignal)
  | [] => .ok []
  | j :: js => do
      let b ← BankedSignal.from_aws_json j
      let bs ← decodeSignals js
      .ok (b :: bs)

/-- Decode a list of rule blobs elementwise; each entry must be a string. -/
def decodeRules : List AwsJson → Except String (List ActionRule)
  | [] => .ok []
  | .str s :: js => do
      let rs ← decodeRules js
      .ok (ActionRule.from_aws_json s :: rs)
  | _ => .error "action rule blob is not a string"

/-- Serialization (`ActionMessage.to_aws_json`): serialize to the wire format.  Modelled
from the spec: fields content_key, matched_hash, matching_banked_signals
(array of signal objects), action_label (string), action_rules (array of
independently serialized rule blobs). -/
def ActionMessage.to_aws_json (m : ActionMessage) : AwsJson :=
  .obj [("content_key", .str m.content_key),
        ("matched_hash", .str m.matched_hash),
        ("matching_banked_signals",
          .arr (m.matching_banked_signals.map BankedSignal.to_aws_json)),
        ("action_label", .str m.action_label.value),
        ("action_rules",
          .arr (m.action_rules.map (fun r => .str r.to_aws_json)))]

/-- Deserialization (`ActionMessage.from_aws_json`): deserialize a transport body; a malformed
body is an error.  Modelled from the spec. -/
def ActionMessage.from_aws_json : AwsJson → Except String ActionMessage
  | .obj fields => do
      let ck ← AwsJson.getStr fields "content_key"
      let mh ← AwsJson.getStr fields "matched_hash"
      let sigs ←
        match List.lookup "matching_banked_signals" fields with
        | some (.arr js) => decodeSignals js
        | _ => .error "missing or non-array matching_banked_signals"
      let lbl ← AwsJson.getStr fields "action_label"
      let rules ←
        match List.lookup "action_rules" fields with
        | some (.arr js) => decodeRules js
        | _ => .error "missing or non-array action_rules"
      .ok ⟨ck, mh, sigs, ⟨lbl⟩, rules⟩
  | _ => .error "action message body is not an object"

/-- Process-wide state touched by `lambda_init_once`: whether the
`lru_cache(maxsize=1)` memo already holds a result, and the `HMAConfig`
table the process was initialized with (absent before initialization).
`HMAConfig.initialize` itself is modelled from the spec: `hmalib.common.
config` is not among the sources; the spec says configuration is "a named
configuration source (e.g., a table name ...) read once at
initialization". -/
structure ProcessState where
  init_cached : Bool
  config_table : Option String
deriving DecidableEq, Repr

/-- Embedding of `lambda_init_once` (action_performer.py lines 28-43): the
body reads `CONFIG_TABLE_NAME` from the environment and calls
`config.HMAConfig.initialize`; `@lru_cache(maxsize=1)` makes every call
after the first return the cached result without running the body. -/
def lambda_init_once (env_config_table : String) (s : ProcessState) :
    ProcessState :=
  if s.init_cached then s
  else { init_cached := true, config_table := some env_config_table }

/-- The set of labels resolvable against a registry (the registry contents
are determined by the configuration loaded at initialization). -/
def resolvableLabels (reg : Registry) : List String := reg.map Prod.fst

/-- Embedding of the `ActionEvent(...)` construction in `lambda_handler`
(action_performer.py lines 72-81): content_id is the message's content_key,
performed_at the current time, action_label the message's label value, and
action_rules the list of each rule serialized independently
(`[rule.to_aws_json() for rule in action_message.action_rules]`). -/
def mkActionEvent (m : ActionMessage) (now : Nat) : ActionEvent :=
  { content_id := m.content_key
    performed_at := now
    action_label := m.action_label.value
    action_rules := m.action_rules.map ActionRule.to_aws_json }

/-- One SQS record of a lambda event; the body is a serialized message. -/
structure SQSRecord where
  body : AwsJson

/-- One iteration of the `for sqs_record in event["Records"]` loop
(action_performer.py lines 64-81): deserialize the body, dispatch via
`perform_label_action` (the source passes the whole `action_message` where
a `MatchMessage` is expected, i.e. the `MatchMessage` view), then write one
`ActionEvent` to the records table.  There is no try/except in the source:
a deserialization failure or a handler raise aborts the iteration with the
events emitted so far and the error. -/
def processRecord (reg : Registry) (now : Nat) (r : SQSRecord) :
    List Event × Option String :=
  match ActionMessage.from_aws_json r.body with
  | .error e => ([], some e)
  | .ok action_message =>
      let d := perform_label_action reg action_message.toMatchMessage
                 action_message.action_label
      match d.result with
      | .error e => (d.events, some e)
      | .ok _ =>
          (d.events ++ [.auditWritten (mkActionEvent action_message now)],
           none)

/-- The record loop of `lambda_handler`: Python's `for` runs iterations in
order and an uncaught exception in one iteration aborts the loop — later
records are not attempted and the exception propagates. -/
def runRecords (reg : Registry) (now : Nat) :
    List SQSRecord → List Event × Option String
  | [] => ([], none)
  | r :: rs =>
      match processRecord reg now r with
      | (evs, some e) => (evs, some e)
      | (evs, none) =>
          let rest := runRecords reg now rs
          (evs ++ rest.1, rest.2)

/-- Embedding of `lambda_handler` (action_performer.py lines 55-83): call
`lambda_init_once`, process each record of `event["Records"]` in order, and
return `{"action_performed": "true"}`; an uncaught per-record exception
propagates out instead.  Output: (new process state, events emitted, the
raised error or the returned dictionary). -/
def lambda_handler (env_config_table : String) (s : ProcessState)
    (reg : Registry) (now : Nat) (event_records : List SQSRecord) :
    ProcessState × List Event × Except String (List (String × String)) :=
  let s1 := lambda_init_once env_config_table s
  match runRecords reg now event_records with
  | (evs, some e) => (s1, evs, .error e)
  | (evs, none) => (s1, evs, .ok [("action_performed", "true")])

/-- The audit records among a list of events, in order. -/
def auditsOf : List Event → List ActionEvent
  | [] => []
  | .auditWritten a :: evs => a :: auditsOf evs
  | .handlerInvoked _ _ :: evs => auditsOf evs

theorem auditsOf_append (l1 l2 : List Event) :
    auditsOf (l1 ++ l2) = auditsOf l1 ++ auditsOf l2 := by
  induction l1 with
  | nil => rfl
  | cons e l ih => cases e <;> simp [auditsOf, ih]

/-- Dispatch emits handler invocations only, never an audit write. -/
theorem dispatch_no_audit (reg : Registry) (m : MatchMessage)
    (L : ActionLabel) :
    auditsOf (perform_label_action reg m L).events = [] := by
  cases hg : reg.get L.value with
  | none => simp [perform_label_action, hg, auditsOf]
  | some H =>
      cases ho : H.outcome m <;>
        simp [perform_label_action, hg, ho, auditsOf]

/-- A no-op handler. -/
def hOk : Handler := ⟨fun _ => .ok⟩

/-- A handler that raises on every invocation. -/
def hRaise : Handler := ⟨fun _ => .raises "handler failed"⟩

/-- Two banked signals from the source's demo block (lines 89-92). -/
def demoSignals : List BankedSignal :=
  [⟨"2862392437204724", "bank 4", "te"⟩, ⟨"4194946153908639", "bank 4", "te"⟩]

/-- A concrete action message for witnesses. -/
def demoMsg : ActionMessage :=
  ⟨"key", "hash", demoSignals, ⟨"EnqueueForReview"⟩, [⟨"r1"⟩, ⟨"r2"⟩]⟩

/-- A registry with one no-op handler. -/
def demoReg : Registry := [("EnqueueForReview", hOk)]

/-- A registry whose only handler raises. -/
def raiseReg : Registry := [("EnqueueForReview", hRaise)]

/-- C1: dispatching an `ActionMessage` whose label has a registered handler
invokes that handler exactly once, passing it exactly the `MatchMessage`
view (content_key, matched_hash, matching_banked_signals — label and rules
dropped), and, whenever the invocation returns, dispatch returns `true`. -/
theorem C1_dispatch_invokes_handler_once (reg : Registry)
    (m : ActionMessage) (H : Handler)
    (hreg : reg.get m.action_label.value = some H) :
    (perform_label_action reg m.toMatchMessage m.action_label).events
      = [.handlerInvoked m.action_label.value
           ⟨m.content_key, m.matched_hash, m.matching_banked_signals⟩]
    ∧ (H.outcome m.toMatchMessage = .ok →
        (perform_label_action reg m.toMatchMessage m.action_label).result
          = .ok true) := by
  have hview : (⟨m.content_key, m.matched_hash, m.matching_banked_signals⟩
      : MatchMessage) = m.toMatchMessage := rfl
  rw [hview]
  cases ho : H.outcome m.toMatchMessage with
  | ok =>
      refine ⟨?_, fun _ => ?_⟩ <;>
        simp [perform_label_action, hreg, ho]
  | raises e =>
      refine ⟨?_, fun hok => ?_⟩
      · simp [perform_label_action, hreg, ho]
      · simp [ho] at hok

/-- Witness for C1 at the concrete registry `demoReg` and message
`demoMsg`. -/
theorem C1_witness :
    (perform_label_action demoReg demoMsg.toMatchMessage
        demoMsg.action_label).events
      = [.handlerInvoked "EnqueueForReview" ⟨"key", "hash", demoSignals⟩]
    ∧ (perform_label_action demoReg demoMsg.toMatchMessage
        demoMsg.action_label).result = .ok true :=
  ⟨(C1_dispatch_invokes_handler_once demoReg demoMsg hOk rfl).1,
   (C1_dispatch_invokes_handler_once demoReg demoMsg hOk rfl).2 rfl⟩

/-- C4: for a label with no registered handler, dispatch returns `false`,
invokes no handler, emits no event at all (in particular no audit write),
and raises no exception. -/
theorem C4_unregistered_label (reg : Registry) (m : MatchMessage)
    (L : ActionLabel) (h : reg.get L.value = none) :
    perform_label_action reg m L = ⟨[], .ok false⟩ := by
  unfold perform_label_action
  rw [h]

/-- Witness for C4 at the empty registry. -/
theorem C4_witness :
    perform_label_action [] ⟨"key", "hash", demoSignals⟩ ⟨"Unregistered"⟩
      = ⟨[], .ok false⟩ :=
  C4_unregistered_label [] ⟨"key", "hash", demoSignals⟩ ⟨"Unregistered"⟩ rfl

/-- C5: when the resolved handler raises, the raised condition propagates
out of dispatch uncaught (the result is that error, not a `Bool`), and
dispatch itself writes no audit record. -/
theorem C5_handler_raise_propagates (reg : Registry) (m : MatchMessage)
    (L : ActionLabel) (H : Handler) (e : String)
    (hreg : reg.get L.value = some H) (hout : H.outcome m = .raises e) :
    (perform_label_action reg m L).result = .error e
    ∧ auditsOf (perform_label_action reg m L).events = [] := by
  refine ⟨?_, dispatch_no_audit reg m L⟩
  simp [perform_label_action, hreg, hout]

/-- Witness for C5 at the concrete raising registry `raiseReg`. -/
theorem C5_witness :
    (perform_label_action raiseReg ⟨"key", "hash", demoSignals⟩
        ⟨"EnqueueForReview"⟩).result = .error "handler failed"
    ∧ auditsOf (perform_label_action raiseReg ⟨"key", "hash", demoSignals⟩
        ⟨"EnqueueForReview"⟩).events = [] :=
  C5_handler_raise_propagates raiseReg ⟨"key", "hash", demoSignals⟩
    ⟨"EnqueueForReview"⟩ hRaise "handler failed" rfl rfl

/-- C7: `lambda_init_once` is idempotent within a process: a second call
leaves the state (and hence the configuration and any registry derived from
it, so the resolvable label set) exactly as one call does, and once the
`lru_cache` memo is populated every further call performs no initialization
work at all (it returns the state unchanged). -/
theorem C7_init_idempotent (env : String) (s : ProcessState) :
    lambda_init_once env (lambda_init_once env s) = lambda_init_once env s
    ∧ (∀ s2 : ProcessState, s2.init_cached = true →
        lambda_init_once env s2 = s2)
    ∧ (∀ mkReg : ProcessState → Registry,
        resolvableLabels (mkReg (lambda_init_once env (lambda_init_once env s)))
          = resolvableLabels (mkReg (lambda_init_once env s))) := by
  have hcached : ∀ s2 : ProcessState, s2.init_cached = true →
      lambda_init_once env s2 = s2 := by
    intro s2 h2
    simp [lambda_init_once, h2]
  have hidem : lambda_init_once env (lambda_init_once env s)
      = lambda_init_once env s := by
    by_cases h : s.init_cached
    · simp [lambda_init_once, h]
    · simp [lambda_init_once, h]
  exact ⟨hidem, hcached, fun mkReg => by rw [hidem]⟩

/-- Witness for C7 at a fresh process state. -/
theorem C7_witness :
    lambda_init_once "cfg-table" (lambda_init_once "cfg-table" ⟨false, none⟩)
      = lambda_init_once "cfg-table" ⟨false, none⟩
    ∧ lambda_init_once "cfg-table" ⟨true, some "cfg-table"⟩
      = ⟨true, some "cfg-table"⟩ :=
  ⟨(C7_init_idempotent "cfg-table" ⟨false, none⟩).1,
   (C7_init_idempotent "cfg-table" ⟨false, none⟩).2.1
     ⟨true, some "cfg-table"⟩ rfl⟩

/-- C9: on an event with an empty Records list, `lambda_handler` emits no
event (no handler invocation, no audit write) and returns the success
indicator. -/
theorem C9_empty_batch (env : String) (s : ProcessState) (reg : Registry)
    (now : Nat) :
    lambda_handler env s reg now []
      = (lambda_init_once env s, [], .ok [("action_performed", "true")]) :=
  rfl

/-- C10: whenever `lambda_handler` completes without raising, its return
value is exactly the constant dictionary
`[("action_performed", "true")]`, whatever the batch and registry were. -/
theorem C10_fixed_success_return (env : String) (s : ProcessState)
    (reg : Registry) (now : Nat) (rs : List SQSRecord)
    (v : List (String × String))
    (h : (lambda_handler env s reg now rs).2.2 = .ok v) :
    v = [("action_performed", "true")] := by
  unfold lambda_handler at h
  cases hrun : runRecords reg now rs with
  | mk evs err =>
      rw [hrun] at h
      cases err with
      | none => simpa using h.symm
      | some e => simp at h

/-- Witness for C10 at the empty batch. -/
theorem C10_witness :
    (lambda_handler "cfg-table" ⟨false, none⟩ demoReg 0 []).2.2
      = .ok [("action_performed", "true")]
    ∧ ([("action_performed", "true")] : List (String × String))
      = [("action_performed", "true")] :=
  ⟨rfl, C10_fixed_success_return "cfg-table" ⟨false, none⟩ demoReg 0 []
    [("action_performed", "true")] rfl⟩

/-- C8: every `ActionEvent` the intake loop records carries, as its
`action_rules` field, the list obtained by serializing each rule of the
deserialized message independently — one blob per rule, order and length
preserved — not one opaque blob for the whole list. -/
theorem C8_rules_serialized_fieldwise (reg : Registry) (now : Nat)
    (r : SQSRecord) (a : ActionEvent)
    (ha : a ∈ auditsOf (processRecord reg now r).1) :
    ∃ am : ActionMessage, ActionMessage.from_aws_json r.body = .ok am
      ∧ a.action_rules = am.action_rules.map ActionRule.to_aws_json
      ∧ a.action_rules.length = am.action_rules.length := by
  cases hfrom : ActionMessage.from_aws_json r.body with
  | error e => simp [processRecord, hfrom, auditsOf] at ha
  | ok am =>
      refine ⟨am, rfl, ?_⟩
      cases hres : (perform_label_action reg am.toMatchMessage
          am.action_label).result with
      | error e =>
          simp [processRecord, hfrom, hres, dispatch_no_audit] at ha
      | ok b =>
          simp [processRecord, hfrom, hres, auditsOf_append,
            dispatch_no_audit, auditsOf] at ha
          subst ha
          simp [mkActionEvent]

/-- Witness for C8 at a concrete record carrying `demoMsg`. -/
theorem C8_witness :
    ∃ am : ActionMessage,
      ActionMessage.from_aws_json (SQSRecord.mk demoMsg.to_aws_json).body
        = .ok am
      ∧ (mkActionEvent demoMsg 7).action_rules
        = am.action_rules.map ActionRule.to_aws_json
      ∧ (mkActionEvent demoMsg 7).action_rules.length
        = am.action_rules.length :=
  C8_rules_serialized_fieldwise demoReg 7 ⟨demoMsg.to_aws_json⟩
    (mkActionEvent demoMsg 7) (by decide)

theorem banked_signal_roundtrip (b : BankedSignal) :
    BankedSignal.from_aws_json b.to_aws_json = .ok b := by
  cases b
  rfl

theorem decodeSignals_map (l : List BankedSignal) :
    decodeSignals (l.map BankedSignal.to_aws_json) = .ok l := by
  induction l with
  | nil => rfl
  | cons b bs ih =>
      simp [decodeSignals, banked_signal_roundtrip, ih]
      rfl

theorem decodeRules_map (l : List ActionRule) :
    decodeRules (l.map (fun r => .str r.to_aws_json)) = .ok l := by
  induction l with
  | nil => rfl
  | cons r rs ih =>
      simp [ActionRule.to_aws_json] at ih
      simp [decodeRules, ih, ActionRule.from_aws_json,
        ActionRule.to_aws_json]
      rfl

/-- C6: serializing an `ActionMessage` to the wire format and deserializing
yields an `ActionMessage` equal in all fields to the original — for every
message, in particular for any non-empty `matching_banked_signals` and any
`action_rules` list. -/
theorem C6_serialization_roundtrip (m : ActionMessage) :
    ActionMessage.from_aws_json m.to_aws_json = .ok m := by
  cases m
  simp [ActionMessage.to_aws_json, ActionMessage.from_aws_json,
    AwsJson.getStr, List.lookup, decodeSignals_map, decodeRules_map]
  rfl

/-- A concrete message for the first slot of a batch. -/
def msg1 : ActionMessage :=
  ⟨"key1", "hash1", [⟨"s1", "b1", "te"⟩], ⟨"EnqueueForReview"⟩, [⟨"r1"⟩]⟩

/-- A concrete message for the third slot of a batch. -/
def msg3 : ActionMessage :=
  ⟨"key3", "hash3", [⟨"s3", "b3", "te"⟩], ⟨"EnqueueForReview"⟩, [⟨"r3"⟩]⟩

/-- A record whose body serializes `msg1`. -/
def rec1 : SQSRecord := ⟨msg1.to_aws_json⟩

/-- A record whose body serializes `msg3`. -/
def rec3 : SQSRecord := ⟨msg3.to_aws_json⟩

/-- A record whose body does not deserialize into an `ActionMessage`. -/
def recBad : SQSRecord := ⟨.str "garbage"⟩

/-- C2 counterexample: in the batch `[rec1, recBad, rec3]` the second
record fails deserialization; `lambda_handler` then emits exactly the
events of the first record — `rec3` is never dispatched nor recorded — so
a failing message does prevent the remaining messages from being
attempted.  (The failure itself does propagate.) -/
theorem C2_counterexample :
    (lambda_handler "cfg-table" ⟨false, none⟩ demoReg 0
        [rec1, recBad, rec3]).2.1
      = [.handlerInvoked "EnqueueForReview" msg1.toMatchMessage,
         .auditWritten (mkActionEvent msg1 0)]
    ∧ (lambda_handler "cfg-table" ⟨false, none⟩ demoReg 0
        [rec1, recBad, rec3]).2.2
      = .error "action message body is not an object"
    ∧ Event.auditWritten (mkActionEvent msg3 0)
        ∉ (lambda_handler "cfg-table" ⟨false, none⟩ demoReg 0
            [rec1, recBad, rec3]).2.1 :=
  ⟨rfl, rfl, by decide⟩

theorem runRecords_ok_prefix (reg : Registry) (now : Nat)
    (pre rest : List SQSRecord)
    (hpre : ∀ p ∈ pre, (processRecord reg now p).2 = none) :
    runRecords reg now (pre ++ rest)
      = ((pre.map (fun p => (processRecord reg now p).1)).flatten
          ++ (runRecords reg now rest).1, (runRecords reg now rest).2) := by
  induction pre with
  | nil => simp
  | cons p ps ih =>
      have hp : (processRecord reg now p).2 = none := hpre p (by simp)
      have hps : ∀ q ∈ ps, (processRecord reg now q).2 = none :=
        fun q hq => hpre q (by simp [hq])
      cases hproc : processRecord reg now p with
      | mk evs err =>
          rw [hproc] at hp
          simp only at hp
          subst hp
          simp [runRecords, hproc, ih hps]

/-- C2 amended: a failure of one message's deserialization or dispatch
aborts the batch — `lambda_handler` propagates that failure (it is
reported, not swallowed), the messages before the failing one have been
processed, but the remaining messages of the batch are not attempted. -/
theorem C2_failure_aborts_batch (env : String) (s : ProcessState)
    (reg : Registry) (now : Nat) (pre : List SQSRecord) (r : SQSRecord)
    (rs : List SQSRecord) (e : String)
    (hpre : ∀ p ∈ pre, (processRecord reg now p).2 = none)
    (hfail : (processRecord reg now r).2 = some e) :
    (lambda_handler env s reg now (pre ++ r :: rs)).2.2 = .error e
    ∧ (lambda_handler env s reg now (pre ++ r :: rs)).2.1
      = (pre.map (fun p => (processRecord reg now p).1)).flatten
          ++ (processRecord reg now r).1 := by
  have hr : runRecords reg now (r :: rs)
      = ((processRecord reg now r).1, some e) := by
    cases hproc : processRecord reg now r with
    | mk evs err =>
        rw [hproc] at hfail
        simp only at hfail
        subst hfail
        simp [runRecords, hproc]
  have hrun := runRecords_ok_prefix reg now pre (r :: rs) hpre
  rw [hr] at hrun
  simp [lambda_handler, hrun]

/-- Witness for the amended C2 at the concrete batch
`[rec1, recBad, rec3]`. -/
theorem C2_amended_witness :
    (lambda_handler "cfg-table" ⟨false, none⟩ demoReg 0
        ([rec1] ++ recBad :: [rec3])).2.2
      = .error "action message body is not an object"
    ∧ (lambda_handler "cfg-table" ⟨false, none⟩ demoReg 0
        ([rec1] ++ recBad :: [rec3])).2.1
      = ([rec1].map (fun p => (processRecord demoReg 0 p).1)).flatten
          ++ (processRecord demoReg 0 recBad).1 :=
  C2_failure_aborts_batch "cfg-table" ⟨false, none⟩ demoReg 0 [rec1] recBad
    [rec3] "action message body is not an object" (by decide) (by decide)

/-- A concrete message whose label resolves to the raising handler of
`raiseReg`. -/
def raiseMsg : ActionMessage :=
  ⟨"keyR", "hashR", demoSignals, ⟨"EnqueueForReview"⟩, [⟨"r1"⟩]⟩

/-- A record whose body serializes `raiseMsg`. -/
def recRaise : SQSRecord := ⟨raiseMsg.to_aws_json⟩

/-- C3 counterexample: with a registry whose handler raises, the single
record of this batch deserializes successfully, yet `lambda_handler`
writes no `ActionEvent` for it — the handler raise happens before the
audit write — so a successfully deserialized message does not always get
an audit record. -/
theorem C3_counterexample :
    ActionMessage.from_aws_json recRaise.body = .ok raiseMsg
    ∧ (lambda_handler "cfg-table" ⟨false, none⟩ raiseReg 0 [recRaise]).2.1
      = [.handlerInvoked "EnqueueForReview" raiseMsg.toMatchMessage]
    ∧ auditsOf
        (lambda_handler "cfg-table" ⟨false, none⟩ raiseReg 0
          [recRaise]).2.1 = [] :=
  ⟨rfl, rfl, rfl⟩

/-- C3 amended: for every message that deserializes successfully and whose
dispatch returns (whether or not a handler was found — even when dispatch
returns `false`), the loop body writes exactly one `ActionEvent`, built
from that message's own content_key, action_label and independently
serialized action_rules, with the current time as performed_at. -/
theorem C3_audit_unconditional_on_return (reg : Registry) (now : Nat)
    (r : SQSRecord) (am : ActionMessage)
    (hok : ActionMessage.from_aws_json r.body = .ok am)
    (hret : ∃ b : Bool, (perform_label_action reg am.toMatchMessage
        am.action_label).result = .ok b) :
    auditsOf (processRecord reg now r).1 = [mkActionEvent am now]
    ∧ (mkActionEvent am now).content_id = am.content_key
    ∧ (mkActionEvent am now).action_label = am.action_label.value
    ∧ (mkActionEvent am now).action_rules
      = am.action_rules.map ActionRule.to_aws_json
    ∧ (mkActionEvent am now).performed_at = now := by
  obtain ⟨b, hres⟩ := hret
  refine ⟨?_, rfl, rfl, rfl, rfl⟩
  simp [processRecord, hok, hres, auditsOf_append, dispatch_no_audit,
    auditsOf]

/-- A concrete message whose label has no handler in `demoReg`. -/
def unregMsg : ActionMessage :=
  ⟨"keyU", "hashU", demoSignals, ⟨"Unregistered"⟩, [⟨"r1"⟩, ⟨"r2"⟩]⟩

/-- Witness for the amended C3: an unregistered label — dispatch returns
`false`, the audit record is still written. -/
theorem C3_amended_witness :
    auditsOf (processRecord demoReg 5 ⟨unregMsg.to_aws_json⟩).1
      = [mkActionEvent unregMsg 5]
    ∧ (mkActionEvent unregMsg 5).content_id = unregMsg.content_key
    ∧ (mkActionEvent unregMsg 5).action_label = unregMsg.action_label.value
    ∧ (mkActionEvent unregMsg 5).action_rules
      = unregMsg.action_rules.map ActionRule.to_aws_json
    ∧ (mkActionEvent unregMsg 5).performed_at = 5 :=
  C3_audit_unconditional_on_return demoReg 5 ⟨unregMsg.to_aws_json⟩
    unregMsg rfl ⟨false, rfl⟩
